import Mathlib

/-!
Verification of an excerpt of the tailscale repository.

The Go code under scrutiny is shallowly embedded in Lean:
pure functions become Lean functions, pointer mutation becomes explicit
state passing, `error` returns become `Option String` / `Except String`,
and calls to external systems (the Kubernetes API, the filesystem, the
environment) become explicit functional parameters ("oracles").
-/

namespace Containerboot

/-- The `settings` struct of `cmd/containerboot/main.go`: all the
configuration for containerboot.  Go string pointers become `Option String`,
bool pointers become `Option Bool`; zero values are the defaults. -/
structure settings where
  AuthKey : String := ""
  Hostname : String := ""
  Routes : Option String := none
  ProxyTo : String := ""
  TailnetTargetIP : String := ""
  TailnetTargetFQDN : String := ""
  ServeConfigPath : String := ""
  DaemonExtraArgs : String := ""
  ExtraArgs : String := ""
  InKubernetes : Bool := false
  UserspaceMode : Bool := false
  StateDir : String := ""
  AcceptDNS : Option Bool := none
  KubeSecret : String := ""
  SOCKSProxyAddr : String := ""
  HTTPProxyAddr : String := ""
  Socket : String := ""
  AuthOnce : Bool := false
  Root : String := ""
  KubernetesCanPatch : Bool := false
  TailscaledConfigFilePath : String := ""
  AllowProxyingClusterTrafficViaIngress : Bool := false
  PodIP : String := ""
deriving Repr, DecidableEq

/-- Go `strings.Fields`: splits around runs of whitespace, dropping empty
fields. -/
def stringsFields (s : String) : List String :=
  (s.split Char.isWhitespace).filter (fun t => t ≠ "")

/-- `tailscaledArgs` of `cmd/containerboot/main.go`: uses cfg to construct
the argv for tailscaled.  The Go function mutates `cfg.StateDir` through the
pointer, so the embedding returns the updated settings alongside the argv.
The `switch` with `fallthrough` is unfolded: the kube case appends the
`--state=kube:` argument and then also the `--statedir=` argument.
(`ensureTunFile`, called for its side effect in the non-userspace case, is
filesystem IO and does not contribute to the argv.) -/
def tailscaledArgs (cfg : settings) : List String × settings :=
  let args := ["--socket=" ++ cfg.Socket]
  let p :=
    if cfg.InKubernetes ∧ cfg.KubeSecret ≠ "" then
      let args := args ++ ["--state=kube:" ++ cfg.KubeSecret]
      let cfg := if cfg.StateDir = "" then { cfg with StateDir := "/tmp" } else cfg
      -- fallthrough into the statedir case
      (args ++ ["--statedir=" ++ cfg.StateDir], cfg)
    else if cfg.StateDir ≠ "" then
      (args ++ ["--statedir=" ++ cfg.StateDir], cfg)
    else
      (args ++ ["--state=mem:", "--statedir=/tmp"], cfg)
  let args := p.1
  let cfg := p.2
  let args := if cfg.UserspaceMode then args ++ ["--tun=userspace-networking"] else args
  let args := if cfg.SOCKSProxyAddr ≠ "" then args ++ ["--socks5-server=" ++ cfg.SOCKSProxyAddr] else args
  let args := if cfg.HTTPProxyAddr ≠ "" then args ++ ["--outbound-http-proxy-listen=" ++ cfg.HTTPProxyAddr] else args
  let args := if cfg.TailscaledConfigFilePath ≠ "" then args ++ ["--config=" ++ cfg.TailscaledConfigFilePath] else args
  let args := if cfg.DaemonExtraArgs ≠ "" then args ++ stringsFields cfg.DaemonExtraArgs else args
  (args, cfg)

/-- `(*settings).validate` of `cmd/containerboot/main.go`.  A `some msg`
result is a non-nil error.  `conffile.Load` reads the filesystem; it is
passed in as the oracle `confLoadErr`, consulted only when
`TailscaledConfigFilePath` is non-empty, exactly as in the source. -/
def validate (confLoadErr : String → Option String) (s : settings) : Option String :=
  match (if s.TailscaledConfigFilePath ≠ "" then confLoadErr s.TailscaledConfigFilePath else none) with
  | some e => some ("error validating tailscaled configfile contents: " ++ e)
  | none =>
    if s.ProxyTo ≠ "" ∧ s.UserspaceMode then
      some "TS_DEST_IP is not supported with TS_USERSPACE"
    else if s.TailnetTargetIP ≠ "" ∧ s.UserspaceMode then
      some "TS_TAILNET_TARGET_IP is not supported with TS_USERSPACE"
    else if s.TailnetTargetFQDN ≠ "" ∧ s.UserspaceMode then
      some "TS_TAILNET_TARGET_FQDN is not supported with TS_USERSPACE"
    else if s.TailnetTargetFQDN ≠ "" ∧ s.TailnetTargetIP ≠ "" then
      some "Both TS_TAILNET_TARGET_IP and TS_TAILNET_FQDN cannot be set"
    else if s.TailscaledConfigFilePath ≠ "" ∧
        (s.AcceptDNS ≠ none ∨ s.AuthKey ≠ "" ∨ s.Routes ≠ none ∨ s.ExtraArgs ≠ "" ∨ s.Hostname ≠ "") then
      some "EXPERIMENTAL_TS_CONFIGFILE_PATH cannot be set in combination with TS_HOSTNAME, TS_EXTRA_ARGS, TS_AUTHKEY, TS_ROUTES, TS_ACCEPT_DNS."
    else if s.AllowProxyingClusterTrafficViaIngress ∧ s.UserspaceMode then
      some "EXPERIMENTAL_ALLOW_PROXYING_CLUSTER_TRAFFIC_VIA_INGRESS is not supported in userspace mode"
    else if s.AllowProxyingClusterTrafficViaIngress ∧ s.ServeConfigPath = "" then
      some "EXPERIMENTAL_ALLOW_PROXYING_CLUSTER_TRAFFIC_VIA_INGRESS is set but this is not a cluster ingress proxy"
    else if s.AllowProxyingClusterTrafficViaIngress ∧ s.PodIP = "" then
      some "EXPERIMENTAL_ALLOW_PROXYING_CLUSTER_TRAFFIC_VIA_INGRESS is set but POD_IP is not set"
    else
      none

/-- Go `strconv.ParseBool`: accepts exactly the twelve literal spellings. -/
def parseBool (s : String) : Option Bool :=
  if s = "1" ∨ s = "t" ∨ s = "T" ∨ s = "true" ∨ s = "TRUE" ∨ s = "True" then some true
  else if s = "0" ∨ s = "f" ∨ s = "F" ∨ s = "false" ∨ s = "FALSE" ∨ s = "False" then some false
  else none

/-- The process environment, as for Go `os.LookupEnv`: `none` when the
variable is unset. -/
def Env : Type := String → Option String

/-- Go `os.Getenv`: the empty string when the variable is unset. -/
def goGetenv (env : Env) (name : String) : String :=
  (env name).getD ""

/-- `defaultEnv` of `cmd/containerboot/main.go`: the value of the given
envvar name, or defVal if unset. -/
def defaultEnv (env : Env) (name defVal : String) : String :=
  match env name with
  | some v => v
  | none => defVal

/-- `defaultEnvStringPointer` of `cmd/containerboot/main.go`. -/
def defaultEnvStringPointer (env : Env) (name : String) : Option String :=
  env name

/-- `defaultEnvBoolPointer` of `cmd/containerboot/main.go`: parses
`os.Getenv` output, `none` on parse failure. -/
def defaultEnvBoolPointer (env : Env) (name : String) : Option Bool :=
  parseBool (goGetenv env name)

/-- `defaultEnvs` of `cmd/containerboot/main.go`: first set variable wins. -/
def defaultEnvs (env : Env) (names : List String) (defVal : String) : String :=
  match names with
  | [] => defVal
  | name :: rest =>
    match env name with
    | some v => v
    | none => defaultEnvs env rest defVal

/-- `defaultBool` of `cmd/containerboot/main.go`: the boolean value of the
given envvar name, or defVal if unset or not a bool. -/
def defaultBool (env : Env) (name : String) (defVal : Bool) : Bool :=
  match parseBool (goGetenv env name) with
  | some b => b
  | none => defVal

/-- The `cfg := &settings{...}` literal at the top of `main` in
`cmd/containerboot/main.go`, as a function of the environment.
(`KubernetesCanPatch` is not set there and keeps its zero value.) -/
def settingsFromEnv (env : Env) : settings :=
  { AuthKey := defaultEnvs env ["TS_AUTHKEY", "TS_AUTH_KEY"] ""
    Hostname := defaultEnv env "TS_HOSTNAME" ""
    Routes := defaultEnvStringPointer env "TS_ROUTES"
    ServeConfigPath := defaultEnv env "TS_SERVE_CONFIG" ""
    ProxyTo := defaultEnv env "TS_DEST_IP" ""
    TailnetTargetIP := defaultEnv env "TS_TAILNET_TARGET_IP" ""
    TailnetTargetFQDN := defaultEnv env "TS_TAILNET_TARGET_FQDN" ""
    DaemonExtraArgs := defaultEnv env "TS_TAILSCALED_EXTRA_ARGS" ""
    ExtraArgs := defaultEnv env "TS_EXTRA_ARGS" ""
    InKubernetes := goGetenv env "KUBERNETES_SERVICE_HOST" ≠ ""
    UserspaceMode := defaultBool env "TS_USERSPACE" true
    StateDir := defaultEnv env "TS_STATE_DIR" ""
    AcceptDNS := defaultEnvBoolPointer env "TS_ACCEPT_DNS"
    KubeSecret := defaultEnv env "TS_KUBE_SECRET" "tailscale"
    SOCKSProxyAddr := defaultEnv env "TS_SOCKS5_SERVER" ""
    HTTPProxyAddr := defaultEnv env "TS_OUTBOUND_HTTP_PROXY_LISTEN" ""
    Socket := defaultEnv env "TS_SOCKET" "/tmp/tailscaled.sock"
    AuthOnce := defaultBool env "TS_AUTH_ONCE" false
    Root := defaultEnv env "TS_TEST_ONLY_ROOT" "/"
    KubernetesCanPatch := false
    TailscaledConfigFilePath := defaultEnv env "EXPERIMENTAL_TS_CONFIGFILE_PATH" ""
    AllowProxyingClusterTrafficViaIngress := defaultBool env "EXPERIMENTAL_ALLOW_PROXYING_CLUSTER_TRAFFIC_VIA_INGRESS" false
    PodIP := defaultEnv env "POD_IP" "" }

/-- The arguments `tailscaledArgs` appends after the socket and state
arguments (tun mode, proxies, config file, extra args), gathered for
stating the shape of the argv. -/
def tailArgsSuffix (cfg : settings) : List String :=
  (if cfg.UserspaceMode then ["--tun=userspace-networking"] else []) ++
  ((if cfg.SOCKSProxyAddr ≠ "" then ["--socks5-server=" ++ cfg.SOCKSProxyAddr] else []) ++
  ((if cfg.HTTPProxyAddr ≠ "" then ["--outbound-http-proxy-listen=" ++ cfg.HTTPProxyAddr] else []) ++
  ((if cfg.TailscaledConfigFilePath ≠ "" then ["--config=" ++ cfg.TailscaledConfigFilePath] else []) ++
  (if cfg.DaemonExtraArgs ≠ "" then stringsFields cfg.DaemonExtraArgs else []))))

end Containerboot

namespace Webdavfs

/-- The `statCache` of `tailfs/tailfsimpl/webdavfs/stat_cache.go`, shallowly
embedded: the ttlcache is modelled as an association list keyed by name (the
most recent `Set` for a key shadows older entries), the mutex and the TTL
expiry being concurrency / real-time aspects outside the embedding.
`α` stands for `fs.FileInfo`, a type this excerpt never inspects. -/
structure statCache (α : Type) where
  cache : List (String × α)
deriving Repr, DecidableEq

/-- `ttlcache.Get`: the value most recently `Set` under `name`, if any. -/
def statCache.get {α : Type} (c : statCache α) (name : String) : Option α :=
  (c.cache.find? (fun kv => kv.1 = name)).map (fun kv => kv.2)

/-- `ttlcache.Set`: insert/overwrite the entry for `name`. -/
def statCache.set {α : Type} (c : statCache α) (name : String) (v : α) : statCache α :=
  ⟨(name, v) :: c.cache⟩

/-- `(*statCache).getOrFetch` of `stat_cache.go`.  The returned triple is
(the `(fs.FileInfo, error)` pair as an `Except`, the cache after the call,
whether `fetch` was invoked). -/
def statCache.getOrFetch {α ε : Type} (c : statCache α) (name : String)
    (fetch : String → Except ε α) : Except ε α × statCache α × Bool :=
  match c.get name with
  | some v => (Except.ok v, c, false)
  | none =>
    match fetch name with
    | Except.error e => (Except.error e, c, true)
    | Except.ok fi => (Except.ok fi, c.set name fi, true)

end Webdavfs

namespace Shared

/-!
The `shared` path-utility package calls the Go standard library's
`path.Clean`, `path.Join`, `strings.Trim` and `strings.Split`; those
library functions are embedded here, faithfully following their Go
sources, so that the package's functions can be stated over them.
-/

/-- `List.dropWhile` never lengthens a list (used for termination of the
`path.Clean` loop). -/
lemma dropWhile_length_le (p : Char → Bool) (l : List Char) :
    (l.dropWhile p).length ≤ l.length := by
  induction l with
  | nil => simp
  | cons c t ih =>
    rw [List.dropWhile_cons]
    split
    · exact Nat.le_succ_of_le ih
    · simp

/-- The backtracking loop of the `..` case of Go `path.Clean`
(`out.w--; for out.w > dotdot && out.index(out.w) != '/' { out.w-- }`),
after the initial decrement: returns the final write index `out.w`.
`out` is the full buffer written so far; the result indexes into it. -/
def cleanBacktrack (out : List Char) (dotdot : Nat) : Nat → Nat
  | 0 => 0
  | w + 1 =>
    if dotdot < w + 1 ∧ out.getD (w + 1) ' ' ≠ '/' then cleanBacktrack out dotdot w
    else w + 1

/-- The main `for r < n` loop of Go `path.Clean`, with the unread suffix
`path[r:]` passed as `rest` and the lazybuf content (its first `out.w`
bytes) as `out`.  The three `switch` cases (empty element, `.` element,
`..` element) and the default case mirror the Go source. -/
def cleanLoop (rooted : Bool) (rest out : List Char) (dotdot : Nat) : List Char :=
  match h : rest with
  | [] => out
  | c :: rest2 =>
    if c = '/' then
      -- empty path element
      cleanLoop rooted rest2 out dotdot
    else if c = '.' ∧ (rest2 = [] ∨ rest2.headD ' ' = '/') then
      -- . element
      cleanLoop rooted rest2 out dotdot
    else if c = '.' ∧ rest2.headD ' ' = '.' ∧ (rest2.tail = [] ∨ rest2.tail.headD ' ' = '/') then
      -- .. element: remove to last /
      if dotdot < out.length then
        cleanLoop rooted rest2.tail (out.take (cleanBacktrack out dotdot (out.length - 1))) dotdot
      else if ¬rooted then
        -- cannot backtrack, but not rooted, so append .. element;
        -- the new dotdot is out.w after the appends, i.e. the new length
        cleanLoop rooted rest2.tail ((if 0 < out.length then out ++ ['/'] else out) ++ ['.', '.'])
          (((if 0 < out.length then out ++ ['/'] else out) ++ ['.', '.']).length)
      else
        cleanLoop rooted rest2.tail out dotdot
    else
      -- real path element: add slash if needed, then copy the element
      cleanLoop rooted (rest.dropWhile (fun d => d ≠ '/'))
        ((if (rooted ∧ out.length ≠ 1) ∨ (¬rooted ∧ out.length ≠ 0) then out ++ ['/'] else out)
          ++ rest.takeWhile (fun d => d ≠ '/')) dotdot
termination_by rest.length
decreasing_by
  · simp_all
  · simp_all
  · simp_all [List.length_take]; omega
  · simp_all; omega
  · simp_all; omega
  · rename_i hslash hdot hdotdot
    subst h
    rw [List.dropWhile_cons, if_pos (by simp [hslash])]
    exact Nat.lt_succ_of_le (by simpa using dropWhile_length_le _ rest2)

/-- Go `path.Clean`. -/
def pathClean (s : String) : String :=
  match s.data with
  | [] => "."
  | c :: rest =>
    let rooted := c = '/'
    let out :=
      if rooted then cleanLoop true rest ['/'] 1
      else cleanLoop false (c :: rest) [] 0
    if out.length = 0 then "." else String.mk out

/-- Go `path.Join`: concatenate the non-skipped elements with slashes and
`Clean` the result; the all-empty case short-circuits to `""`. -/
def pathJoin (elem : List String) : String :=
  if (elem.map String.length).sum = 0 then ""
  else
    pathClean (elem.foldl
      (fun buf e =>
        if 0 < buf.length ∨ e ≠ "" then
          (if 0 < buf.length then buf ++ "/" else buf) ++ e
        else buf)
      "")

/-- Go `strings.Trim(s, cutset)`: strip leading and trailing characters
belonging to `cutset` (here given as a list of characters). -/
def stringsTrim (s : String) (cutset : List Char) : String :=
  String.mk (((s.data.dropWhile (fun c => cutset.contains c)).reverse.dropWhile
    (fun c => cutset.contains c)).reverse)

/-- Go `strings.Split(s, "/")` on the character level: split at every
slash; always at least one (possibly empty) field. -/
def splitOnSlash : List Char → List (List Char)
  | [] => [[]]
  | c :: rest =>
    if c = '/' then [] :: splitOnSlash rest
    else
      match splitOnSlash rest with
      | [] => [[c]]
      | g :: gs => (c :: g) :: gs

/-- `sepString` of the `shared` path utilities. -/
def sepString : String := "/"

/-- `sepStringAndDot` of the `shared` path utilities. -/
def sepStringAndDot : String := "/."

/-- `CleanAndSplit` of the `shared` path utilities:
`strings.Split(strings.Trim(path.Clean(p), "/."), "/")`. -/
def CleanAndSplit (p : String) : List String :=
  (splitOnSlash (stringsTrim (pathClean p) sepStringAndDot.data).data).map String.mk

/-- `Join` of the `shared` path utilities: `path.Join` of `"/"` followed by
the parts. -/
def Join (parts : List String) : String :=
  pathJoin ([sepString] ++ parts)

/-- `IsRoot` of the `shared` path utilities. -/
def IsRoot (p : String) : Bool :=
  p = "" ∨ p = sepString

end Shared

namespace Operator

/-!
The Tailscale Kubernetes operator's `ServiceReconciler`.  All interaction
with the Kubernetes API server (`Get`, `Update`, the `tailscaleSTSReconciler`
calls) happens through the controller-runtime client; those calls appear
here as explicit oracle parameters giving their results.
-/

/-- Modelled from the spec: `FinalizerName`, declared in
`cmd/k8s-operator/operator.go` which lies outside this excerpt; the
reconciler only compares finalizer entries against it, so its concrete
value is immaterial to the theorems below. -/
def FinalizerName : String := "tailscale.com/finalizer"

/-- Modelled from the spec: `AnnotationExpose`, declared in
`cmd/k8s-operator/operator.go`, outside this excerpt. -/
def AnnotationExpose : String := "tailscale.com/expose"

/-- Modelled from the spec: `AnnotationTailnetTargetIP`, declared in
`cmd/k8s-operator/operator.go`, outside this excerpt. -/
def AnnotationTailnetTargetIP : String := "tailscale.com/tailnet-ip"

/-- Modelled from the spec: the deprecated `annotationTailnetTargetIPOld`,
declared in `cmd/k8s-operator/operator.go`, outside this excerpt. -/
def annotationTailnetTargetIPOld : String := "tailscale.com/ts-tailnet-target-ip"

/-- Modelled from the spec: `AnnotationTailnetTargetFQDN`, declared in
`cmd/k8s-operator/operator.go`, outside this excerpt. -/
def AnnotationTailnetTargetFQDN : String := "tailscale.com/tailnet-fqdn"

/-- Go map indexing with the string zero value for a missing key. -/
def mapGet (m : List (String × String)) (k : String) : String :=
  ((m.find? (fun kv => kv.1 = k)).map (fun kv => kv.2)).getD ""

/-- The fragment of `corev1.Service` read or written by the reconciler:
object metadata plus the spec fields consulted by `shouldExpose` and
`hasLoadBalancerClass`.  Annotations are an association list with Go map
semantics; `DeletionTimestampIsZero` is the result of
`svc.DeletionTimestamp.IsZero()`.  The reconciler's service pointers are
non-nil whenever control reaches the functions below, so `Service` is
passed by value. -/
structure Service where
  Name : String := ""
  Namespace : String := ""
  UID : String := ""
  Annotations : List (String × String) := []
  Finalizers : List String := []
  DeletionTimestampIsZero : Bool := true
  SpecType : String := ""
  SpecClusterIP : String := ""
  SpecLoadBalancerClass : Option String := none
deriving Repr, DecidableEq

/-- The state of a `ServiceReconciler` that influences the functions
below (`ssr`, logger, metrics sets and recorder act only through
oracles / side effects). -/
structure ServiceReconciler where
  isDefaultLoadBalancer : Bool := false
deriving Repr, DecidableEq

/-- `(*ServiceReconciler).hasLoadBalancerClass` of the service reconciler
source file. -/
def hasLoadBalancerClass (a : ServiceReconciler) (svc : Service) : Bool :=
  svc.SpecType = "LoadBalancer" ∧
    ((∃ c, svc.SpecLoadBalancerClass = some c ∧ c = "tailscale") ∨
      (svc.SpecLoadBalancerClass = none ∧ a.isDefaultLoadBalancer))

/-- `(*ServiceReconciler).hasExposeAnnotation`: whether the Service has
the tailscale.com/expose annotation set to "true". -/
def hasExposeAnnot (_a : ServiceReconciler) (svc : Service) : Bool :=
  mapGet svc.Annotations AnnotationExpose = "true"

/-- `(*ServiceReconciler).shouldExpose`: headless services can never be
exposed. -/
def shouldExpose (a : ServiceReconciler) (svc : Service) : Bool :=
  if svc.SpecClusterIP = "" ∨ svc.SpecClusterIP = "None" then false
  else hasLoadBalancerClass a svc ∨ hasExposeAnnot a svc

/-- The reconciler's `tailnetTargetAnnotation` helper: the value of the
tailnet-ip annotation, or else of its deprecated spelling. -/
def tailnetTargetAnnot (_a : ServiceReconciler) (svc : Service) : String :=
  if mapGet svc.Annotations AnnotationTailnetTargetIP ≠ "" then
    mapGet svc.Annotations AnnotationTailnetTargetIP
  else
    mapGet svc.Annotations annotationTailnetTargetIPOld

/-- A character allowed inside a MagicDNS label: `[a-zA-Z0-9-]`. -/
def isMagicDNSChar (c : Char) : Bool :=
  c.isAlpha || c.isDigit || c == '-'

/-- A MagicDNS label: one or more characters from `[a-zA-Z0-9-]`. -/
def isMagicDNSLabel (s : String) : Bool :=
  (s != "") && s.data.all isMagicDNSChar

/-- `isMagicDNSName` of the service reconciler source: whether name
matches the regular expression
`^[a-zA-Z0-9-]+\.[a-zA-Z0-9-]+\.ts\.net\.?$` (a full tailnet node FQDN
with or without final dot).  Because the bracket class cannot match `.`,
matching is equivalent to this decomposition of the name at its dots. -/
def isMagicDNSName (name : String) : Bool :=
  match name.splitOn "." with
  | [a, b, t, n] => isMagicDNSLabel a && isMagicDNSLabel b && (t == "ts") && (n == "net")
  | [a, b, t, n, e] => isMagicDNSLabel a && isMagicDNSLabel b && (t == "ts") && (n == "net") && (e == "")
  | _ => false

/-- Go `fmt` `%q` verb on a string without special characters: wrap in
double quotes. -/
def quoteGo (s : String) : String :=
  "\"" ++ s ++ "\""

/-- `validateService` of the service reconciler source.  Note that the
first `append` passes the format string and the two annotation names as
three separate slice elements (the verbs are never substituted); the
second violation goes through `fmt.Sprintf`. -/
def validateService (svc : Service) : List String :=
  let violations : List String := []
  let violations :=
    if mapGet svc.Annotations AnnotationTailnetTargetFQDN ≠ "" ∧
        mapGet svc.Annotations AnnotationTailnetTargetIP ≠ "" then
      violations ++ ["only one of annotations %s and %s can be set",
        AnnotationTailnetTargetIP, AnnotationTailnetTargetFQDN]
    else violations
  let violations :=
    if mapGet svc.Annotations AnnotationTailnetTargetFQDN ≠ "" ∧
        ¬isMagicDNSName (mapGet svc.Annotations AnnotationTailnetTargetFQDN) then
      violations ++ ["invalid value of annotation " ++ AnnotationTailnetTargetFQDN ++ ": " ++
        quoteGo (mapGet svc.Annotations AnnotationTailnetTargetFQDN) ++
        " does not appear to be a valid MagicDNS name"]
    else violations
  violations

/-- Go `slices.Index`: the index of the first occurrence of target, with
the not-found result -1 rendered as `none`. -/
def slicesIndex : List String → String → Option Nat
  | [], _ => none
  | b :: t, target =>
    if b = target then some 0 else (slicesIndex t target).map (· + 1)

/-- `(*ServiceReconciler).maybeCleanup`.  `cleanup` is the result of the
`a.ssr.Cleanup` call (`Except.ok done` or an error); `update` is the
`a.Update` Kubernetes API write (`some` = error).  The result triple is
(the service value after any mutation, the returned error, whether
`a.Update` was called).  The clientmetric gauge updates touch no
reconciler-visible state and are omitted. -/
def maybeCleanup (cleanup : Except String Bool) (update : Service → Option String)
    (svc : Service) : Service × Option String × Bool :=
  match slicesIndex svc.Finalizers FinalizerName with
  | none => (svc, none, false)
  | some ix =>
    match cleanup with
    | Except.error e => (svc, some ("failed to cleanup: " ++ e), false)
    | Except.ok false => (svc, none, false)
    | Except.ok true =>
      let svc2 := { svc with Finalizers := svc.Finalizers.take ix ++ svc.Finalizers.drop (ix + 1) }
      match update svc2 with
      | some e => (svc2, some ("failed to remove finalizer: " ++ e), true)
      | none => (svc2, none, true)

/-- The result of the reconciler's `a.Get(ctx, req.NamespacedName, svc)`
call: the Service, a Kubernetes NotFound error, or another error. -/
inductive GetResult where
  | found (svc : Service)
  | notFound
  | otherErr (msg : String)
deriving Repr, DecidableEq

/-- `reconcile.Result` of controller-runtime; its zero value asks for no
requeue. -/
structure ReconcileResult where
  Requeue : Bool := false
  RequeueAfterNanos : Int := 0
deriving Repr, DecidableEq

/-- `(*ServiceReconciler).Reconcile`.  `getRes` is the outcome of the
`a.Get` call; `cleanup` and `update` feed `maybeCleanup`; `provision`
is the error result of `a.maybeProvision`, whose internals call further
Kubernetes APIs. -/
def Reconcile (a : ServiceReconciler) (getRes : GetResult)
    (cleanup : Except String Bool) (update : Service → Option String)
    (provision : Service → Option String) : ReconcileResult × Option String :=
  match getRes with
  | GetResult.notFound => ({}, none)
  | GetResult.otherErr e => ({}, some ("failed to get svc: " ++ e))
  | GetResult.found svc =>
    let targetIP := tailnetTargetAnnot a svc
    let targetFQDN := mapGet svc.Annotations AnnotationTailnetTargetFQDN
    if ¬svc.DeletionTimestampIsZero ∨ (¬shouldExpose a svc ∧ targetIP = "" ∧ targetFQDN = "") then
      ({}, (maybeCleanup cleanup update svc).2.1)
    else
      ({}, provision svc)

end Operator

/-! ## Theorems -/

namespace Containerboot

/-- A chain of conditional appends only extends its starting list. -/
lemma append_chain (A : List String) (c1 c2 c3 c4 c5 : Prop)
    [Decidable c1] [Decidable c2] [Decidable c3] [Decidable c4] [Decidable c5]
    (l1 l2 l3 l4 l5 : List String) :
    (let a1 := if c1 then A ++ l1 else A
     let a2 := if c2 then a1 ++ l2 else a1
     let a3 := if c3 then a2 ++ l3 else a2
     let a4 := if c4 then a3 ++ l4 else a3
     if c5 then a4 ++ l5 else a4) =
      A ++ ((if c1 then l1 else []) ++ ((if c2 then l2 else []) ++ ((if c3 then l3 else []) ++
        ((if c4 then l4 else []) ++ (if c5 then l5 else []))))) := by
  split_ifs <;> simp

/-- Claim C1: for every settings value cfg, `tailscaledArgs cfg` returns an
argv whose first element is `"--socket=" ++ cfg.Socket`, followed by the
state arguments: if `cfg.InKubernetes` and `cfg.KubeSecret` is non-empty it
appends `"--state=kube:" ++ cfg.KubeSecret`, sets `cfg.StateDir` to
`"/tmp"` when it was empty and (via fallthrough) also appends
`"--statedir=" ++ cfg.StateDir`; otherwise if `cfg.StateDir` is non-empty
it appends only `"--statedir=" ++ cfg.StateDir`; otherwise it appends
`"--state=mem:"` and `"--statedir=/tmp"`. -/
theorem tailscaledArgs_socket_and_state (cfg : settings) :
    ∃ rest,
      (tailscaledArgs cfg).1 =
        ("--socket=" ++ cfg.Socket) ::
          ((if cfg.InKubernetes ∧ cfg.KubeSecret ≠ "" then
              ["--state=kube:" ++ cfg.KubeSecret,
               "--statedir=" ++ (if cfg.StateDir = "" then "/tmp" else cfg.StateDir)]
            else if cfg.StateDir ≠ "" then ["--statedir=" ++ cfg.StateDir]
            else ["--state=mem:", "--statedir=/tmp"]) ++ rest) ∧
      (tailscaledArgs cfg).2.StateDir =
        (if cfg.InKubernetes ∧ cfg.KubeSecret ≠ "" ∧ cfg.StateDir = "" then "/tmp"
         else cfg.StateDir) := by
  refine ⟨tailArgsSuffix cfg, ?_, ?_⟩ <;>
    by_cases hk : cfg.InKubernetes ∧ cfg.KubeSecret ≠ "" <;>
    by_cases hs : cfg.StateDir = "" <;>
    simp only [tailscaledArgs, tailArgsSuffix, append_chain] <;>
    simp [hk, hs]

/-- Claim C2: for every settings value s whose `TailscaledConfigFilePath`
is empty, `s.validate()` returns a non-nil error if and only if one of the
seven listed misconfigurations holds. -/
theorem validate_isSome_iff (f : String → Option String) (s : settings)
    (hpath : s.TailscaledConfigFilePath = "") :
    (validate f s).isSome ↔
      ((s.ProxyTo ≠ "" ∧ s.UserspaceMode) ∨
       (s.TailnetTargetIP ≠ "" ∧ s.UserspaceMode) ∨
       (s.TailnetTargetFQDN ≠ "" ∧ s.UserspaceMode) ∨
       (s.TailnetTargetIP ≠ "" ∧ s.TailnetTargetFQDN ≠ "") ∨
       (s.AllowProxyingClusterTrafficViaIngress ∧ s.UserspaceMode) ∨
       (s.AllowProxyingClusterTrafficViaIngress ∧ s.ServeConfigPath = "") ∨
       (s.AllowProxyingClusterTrafficViaIngress ∧ s.PodIP = "")) := by
  simp only [validate, hpath]
  norm_num
  split_ifs <;> simp_all <;> tauto

/-- Witness for claim C2, at the default settings value (a trivially
satisfied hypothesis, both sides false). -/
theorem validate_isSome_iff_witness :
    (validate (fun _ => none) {}).isSome ↔
      ((({} : settings).ProxyTo ≠ "" ∧ ({} : settings).UserspaceMode) ∨
       (({} : settings).TailnetTargetIP ≠ "" ∧ ({} : settings).UserspaceMode) ∨
       (({} : settings).TailnetTargetFQDN ≠ "" ∧ ({} : settings).UserspaceMode) ∨
       (({} : settings).TailnetTargetIP ≠ "" ∧ ({} : settings).TailnetTargetFQDN ≠ "") ∨
       (({} : settings).AllowProxyingClusterTrafficViaIngress ∧ ({} : settings).UserspaceMode) ∨
       (({} : settings).AllowProxyingClusterTrafficViaIngress ∧ ({} : settings).ServeConfigPath = "") ∨
       (({} : settings).AllowProxyingClusterTrafficViaIngress ∧ ({} : settings).PodIP = "")) :=
  validate_isSome_iff (fun _ => none) {} rfl

/-- Claim C7: `defaultBool name defVal` returns the boolean parsed by
`strconv.ParseBool` from the variable's value when parsing succeeds and
`defVal` in every other case (unset variable, empty string, non-boolean
text); in `main`'s settings literal, `TS_USERSPACE` therefore defaults to
true and `TS_AUTH_ONCE` to false when absent. -/
theorem defaultBool_parse_or_default (env : Env) (name : String) (defVal : Bool) :
    (∀ b, parseBool (goGetenv env name) = some b → defaultBool env name defVal = b) ∧
    (parseBool (goGetenv env name) = none → defaultBool env name defVal = defVal) ∧
    (env name = none → defaultBool env name defVal = defVal) ∧
    ((settingsFromEnv env).UserspaceMode = defaultBool env "TS_USERSPACE" true) ∧
    ((settingsFromEnv env).AuthOnce = defaultBool env "TS_AUTH_ONCE" false) ∧
    (env "TS_USERSPACE" = none → (settingsFromEnv env).UserspaceMode = true) ∧
    (env "TS_AUTH_ONCE" = none → (settingsFromEnv env).AuthOnce = false) := by
  refine ⟨?_, ?_, ?_, ?_, ?_, ?_, ?_⟩
  · intro b h; simp [defaultBool, h]
  · intro h; simp [defaultBool, h]
  · intro h; simp [defaultBool, goGetenv, h, parseBool]
  · simp [settingsFromEnv]
  · simp [settingsFromEnv]
  · intro h; simp [settingsFromEnv, defaultBool, goGetenv, h, parseBool]
  · intro h; simp [settingsFromEnv, defaultBool, goGetenv, h, parseBool]

/-- Witness for claim C7: in the empty environment the settings literal
sets userspace mode. -/
theorem defaultBool_parse_or_default_witness :
    (settingsFromEnv (fun _ => none)).UserspaceMode = true :=
  (defaultBool_parse_or_default (fun _ => none) "TS_USERSPACE" true).2.2.2.2.2.1 rfl

end Containerboot

namespace Webdavfs

/-- Claim C3: if the statCache holds an entry for name, `getOrFetch`
returns that cached value with a nil error and never calls fetch; if there
is no entry and `fetch name` fails, `getOrFetch` returns that error and
leaves the cache unchanged; if fetch succeeds, its result is stored under
name and returned. -/
theorem getOrFetch_cases {α ε : Type} (c : statCache α) (name : String)
    (fetch : String → Except ε α) :
    (∀ v, c.get name = some v →
      c.getOrFetch name fetch = (Except.ok v, c, false)) ∧
    (∀ e, c.get name = none → fetch name = Except.error e →
      c.getOrFetch name fetch = (Except.error e, c, true)) ∧
    (∀ v, c.get name = none → fetch name = Except.ok v →
      c.getOrFetch name fetch = (Except.ok v, c.set name v, true)) := by
  refine ⟨?_, ?_, ?_⟩ <;> intro x h <;> simp [statCache.getOrFetch, h]
  all_goals intro h2; simp [h2]

/-- Witness for claim C3: a cache hit is served without fetching. -/
theorem getOrFetch_cases_witness :
    (statCache.mk [("a", (5 : Nat))]).getOrFetch "a"
        (fun _ => (Except.error "unreachable" : Except String Nat)) =
      (Except.ok 5, statCache.mk [("a", 5)], false) :=
  (getOrFetch_cases (statCache.mk [("a", (5 : Nat))]) "a"
    (fun _ => (Except.error "unreachable" : Except String Nat))).1 5 rfl

end Webdavfs

namespace Operator

/-- `slicesIndex` misses exactly the absent elements. -/
lemma slicesIndex_none (l : List String) (a : String) (h : a ∉ l) :
    slicesIndex l a = none := by
  induction l with
  | nil => simp [slicesIndex]
  | cons b t ih =>
    simp only [List.mem_cons, not_or] at h
    simp [slicesIndex, Ne.symm h.1, ih h.2]

/-- Removing the element at the first index found by `slicesIndex` is
`List.erase`. -/
lemma slicesIndex_take_drop_erase (a : String) :
    ∀ (l : List String) (ix : Nat), slicesIndex l a = some ix →
      l.take ix ++ l.drop (ix + 1) = l.erase a := by
  intro l
  induction l with
  | nil => intro ix h; simp [slicesIndex] at h
  | cons b t ih =>
    intro ix h
    by_cases hb : b = a
    · subst hb
      simp [slicesIndex] at h
      subst h
      simp [List.erase_cons_head]
    · simp only [slicesIndex, if_neg hb] at h
      match hix : slicesIndex t a with
      | none => rw [hix] at h; simp at h
      | some ix' =>
        rw [hix] at h
        simp at h
        subst h
        rw [List.erase_cons_tail (by simp [hb])]
        simp only [List.take_succ_cons, List.drop_succ_cons]
        rw [List.cons_append, ih ix' hix]

/-- `slicesIndex` finds every present element. -/
lemma slicesIndex_mem (l : List String) (a : String) (h : a ∈ l) :
    ∃ ix, slicesIndex l a = some ix := by
  induction l with
  | nil => simp at h
  | cons b t ih =>
    by_cases hb : b = a
    · exact ⟨0, by simp [slicesIndex, hb]⟩
    · have : a ∈ t := by
        rcases List.mem_cons.mp h with h1 | h1
        · exact absurd h1.symm hb
        · exact h1
      obtain ⟨ix, hix⟩ := ih this
      exact ⟨ix + 1, by simp [slicesIndex, hb, hix]⟩

/-- Claim C5: `Reconcile` returns an empty `reconcile.Result` and a nil
error when the `Get` reports a Kubernetes NotFound error (deletion treated
as success, no cleanup or provisioning attempted); any other `Get` error
is returned wrapped, as a non-nil error. -/
theorem Reconcile_get_error_paths (a : ServiceReconciler) (cleanup : Except String Bool)
    (update : Service → Option String) (provision : Service → Option String) :
    (Reconcile a GetResult.notFound cleanup update provision = ({}, none)) ∧
    (∀ e, Reconcile a (GetResult.otherErr e) cleanup update provision =
        ({}, some ("failed to get svc: " ++ e)) ∧
      (Reconcile a (GetResult.otherErr e) cleanup update provision).2 ≠ none) := by
  refine ⟨rfl, fun e => ⟨rfl, by simp [Reconcile]⟩⟩

/-- Claim C8: when a Service carries both the tailnet-target-IP and the
tailnet-target-FQDN annotations, `validateService` returns a violations
slice starting with the unformatted literal `"only one of annotations %s
and %s can be set"` followed by the two annotation names as two further
separate elements (the format verbs are never substituted, the arguments
being passed to append rather than Sprintf). -/
theorem validateService_both_target_annotations (svc : Service)
    (hfqdn : mapGet svc.Annotations AnnotationTailnetTargetFQDN ≠ "")
    (hip : mapGet svc.Annotations AnnotationTailnetTargetIP ≠ "") :
    ∃ rest, validateService svc =
      "only one of annotations %s and %s can be set" ::
        AnnotationTailnetTargetIP :: AnnotationTailnetTargetFQDN :: rest := by
  simp only [validateService, if_pos (And.intro hfqdn hip)]
  split_ifs with h2
  · exact ⟨["invalid value of annotation " ++ AnnotationTailnetTargetFQDN ++ ": " ++
      quoteGo (mapGet svc.Annotations AnnotationTailnetTargetFQDN) ++
      " does not appear to be a valid MagicDNS name"], by simp⟩
  · exact ⟨[], by simp⟩

/-- Witness for claim C8: a Service with both target annotations set. -/
theorem validateService_both_target_annotations_witness :
    ∃ rest, validateService
        { Annotations := [("tailscale.com/tailnet-ip", "100.2.3.4"),
                          ("tailscale.com/tailnet-fqdn", "foo.bar.ts.net")] } =
      "only one of annotations %s and %s can be set" ::
        AnnotationTailnetTargetIP :: AnnotationTailnetTargetFQDN :: rest :=
  validateService_both_target_annotations _
    (by simp [mapGet, AnnotationTailnetTargetFQDN])
    (by simp [mapGet, AnnotationTailnetTargetIP])

/-- Claim C10: when `svc.Finalizers` contains `FinalizerName` and the
child-resource Cleanup reports done without error, `maybeCleanup` removes
exactly the first occurrence of `FinalizerName` (leaving every other
finalizer in its original relative order, which is what `List.erase`
does); when `FinalizerName` is absent the service value is untouched and
no Update is issued. -/
theorem maybeCleanup_finalizer_removal (cleanup : Except String Bool)
    (update : Service → Option String) (svc : Service) :
    (FinalizerName ∈ svc.Finalizers →
      (maybeCleanup (Except.ok true) update svc).1.Finalizers
        = svc.Finalizers.erase FinalizerName) ∧
    (FinalizerName ∉ svc.Finalizers →
      maybeCleanup cleanup update svc = (svc, none, false)) := by
  constructor
  · intro hmem
    obtain ⟨ix, hix⟩ := slicesIndex_mem _ _ hmem
    simp only [maybeCleanup, hix]
    have := slicesIndex_take_drop_erase FinalizerName svc.Finalizers ix hix
    match update { svc with Finalizers := svc.Finalizers.take ix ++ svc.Finalizers.drop (ix + 1) } with
    | some e => simpa using this
    | none => simpa using this
  · intro hmem
    simp [maybeCleanup, slicesIndex_none _ _ hmem]

/-- Witness for claim C10: the middle finalizer is removed, its
neighbours survive in order. -/
theorem maybeCleanup_finalizer_removal_witness :
    (maybeCleanup (Except.ok true) (fun _ => none)
        { Finalizers := ["other.io/keep", FinalizerName, "second.io/keep"] }).1.Finalizers
      = (["other.io/keep", FinalizerName, "second.io/keep"] : List String).erase FinalizerName :=
  (maybeCleanup_finalizer_removal (Except.ok true) (fun _ => none)
    { Finalizers := ["other.io/keep", FinalizerName, "second.io/keep"] }).1 (by simp)

end Operator

namespace Shared

/-- `cleanBacktrack` never moves the write index forward. -/
lemma cleanBacktrack_le (out : List Char) (dd : Nat) :
    ∀ w, cleanBacktrack out dd w ≤ w := by
  intro w
  induction w with
  | zero => simp [cleanBacktrack]
  | succ w ih =>
    simp only [cleanBacktrack]
    split
    · exact Nat.le_succ_of_le ih
    · exact Nat.le_refl _

/-- `cleanBacktrack` never backs up past `dotdot`. -/
lemma cleanBacktrack_ge (out : List Char) (dd : Nat) :
    ∀ w, dd ≤ w → dd ≤ cleanBacktrack out dd w := by
  intro w
  induction w with
  | zero => intro h; simpa [cleanBacktrack] using h
  | succ w ih =>
    intro h
    simp only [cleanBacktrack]
    split
    · rename_i hcond
      exact ih (Nat.lt_succ_iff.mp hcond.1)
    · exact h

/-- Taking a positive prefix preserves the head. -/
lemma head?_take (k : Nat) (out : List Char) (hk : 0 < k) :
    (List.take k out).head? = out.head? := by
  cases out with
  | nil => simp
  | cons o t =>
    cases k with
    | zero => omega
    | succ k => simp

/-- Invariant of the `path.Clean` loop in the rooted case: the output
buffer stays non-empty and keeps its leading slash. -/
lemma cleanLoop_rooted_inv (rest out : List Char) (dotdot : Nat)
    (h0 : out ≠ []) (hh : out.head? = some '/') (hd : dotdot = 1) :
    cleanLoop true rest out dotdot ≠ [] ∧
      (cleanLoop true rest out dotdot).head? = some '/' := by
  induction rest, out, dotdot using cleanLoop.induct true with
  | case1 out dotdot =>
    simpa [cleanLoop] using ⟨h0, hh⟩
  | case2 out dotdot rest2 ih =>
    rw [cleanLoop]
    simpa using ih h0 hh hd
  | case3 out dotdot c rest2 hc1 hc2 ih =>
    rw [cleanLoop]
    rw [if_neg (by simp [hc1]), if_pos hc2]
    exact ih h0 hh hd
  | case4 out dotdot c rest2 hc1 hc2 hc3 hlt ih =>
    rw [cleanLoop]
    rw [if_neg (by simp [hc1]), if_neg hc2, if_pos hc3, if_pos hlt]
    subst hd
    have hgb : 1 ≤ cleanBacktrack out 1 (out.length - 1) := by
      apply cleanBacktrack_ge
      omega
    apply ih
    · apply List.length_pos.mp
      rw [List.length_take]
      exact lt_min_iff.mpr ⟨by omega, by omega⟩
    · rw [head?_take _ _ (by omega)]
      exact hh
    · rfl
  | case5 out dotdot c rest2 hc1 hc2 hc3 hge hroot ih =>
    exact absurd rfl hroot
  | case6 out dotdot c rest2 hc1 hc2 hc3 hge hroot ih =>
    rw [cleanLoop]
    rw [if_neg (by simp [hc1]), if_neg hc2, if_pos hc3, if_neg hge, if_neg hroot]
    exact ih h0 hh hd
  | case7 out dotdot c rest2 hc1 hc2 hc3 ih =>
    rw [cleanLoop]
    rw [if_neg (by simp [hc1]), if_neg hc2, if_neg hc3]
    apply ih
    · intro hcon
      rcases List.append_eq_nil.mp hcon with ⟨hl, -⟩
      split at hl
      · exact absurd (List.append_eq_nil.mp hl).1 h0
      · exact h0 hl
    · rw [List.head?_append]
      split
      · rename_i hsplit
        rw [List.head?_append]
        rw [hh]
        rfl
      · rw [hh]
        rfl
    · exact hd

/-- `path.Clean` keeps a leading slash. -/
lemma pathClean_rooted (s : String) (h : s.data.head? = some '/') :
    (pathClean s).data.head? = some '/' := by
  match hs : s.data with
  | [] => rw [hs] at h; simp at h
  | c :: rest =>
    rw [hs] at h
    simp only [List.head?_cons, Option.some_inj] at h
    subst h
    unfold pathClean
    rw [hs]
    simp only []
    have hinv := cleanLoop_rooted_inv rest ['/'] 1 (by simp) (by simp) rfl
    simp only [if_true]
    rw [if_neg (by simpa [List.length_eq_zero] using hinv.1)]
    simpa using hinv.2

/-- The `path.Clean` loop ignores a run of slashes. -/
lemma cleanLoop_slashes : ∀ (rest : List Char), (∀ c ∈ rest, c = '/') →
    ∀ (out : List Char) (dd : Nat), cleanLoop true rest out dd = out := by
  intro rest
  induction rest with
  | nil => intro h out dd; simp [cleanLoop]
  | cons c t ih =>
    intro h out dd
    have hc : c = '/' := h c (by simp)
    subst hc
    rw [cleanLoop]
    simp only [if_pos rfl]
    exact ih (fun d hd => h d (by simp [hd])) out dd

/-- `path.Clean` collapses a non-empty run of slashes to the root. -/
lemma pathClean_slashes (s : String) (hne : s.data ≠ [])
    (hall : ∀ c ∈ s.data, c = '/') : pathClean s = "/" := by
  match hs : s.data with
  | [] => exact absurd hs hne
  | c :: rest =>
    have hc : c = '/' := hall c (by rw [hs]; simp)
    subst hc
    unfold pathClean
    rw [hs]
    simp only [if_true]
    rw [cleanLoop_slashes rest (fun d hd => hall d (by rw [hs]; simp [hd])) ['/'] 1]
    simp

/-- The `path.Join` buffer loop keeps a non-empty buffer's leading
slash. -/
lemma joinBuf_head (parts : List String) :
    ∀ buf : String, buf.data ≠ [] → buf.data.head? = some '/' →
      (List.foldl
        (fun buf e =>
          if 0 < buf.length ∨ e ≠ "" then
            (if 0 < buf.length then buf ++ "/" else buf) ++ e
          else buf) buf parts).data ≠ [] ∧
      (List.foldl
        (fun buf e =>
          if 0 < buf.length ∨ e ≠ "" then
            (if 0 < buf.length then buf ++ "/" else buf) ++ e
          else buf) buf parts).data.head? = some '/' := by
  induction parts with
  | nil => intro buf h0 hh; exact ⟨h0, hh⟩
  | cons p ps ih =>
    intro buf h0 hh
    rw [List.foldl_cons]
    have hlen : 0 < buf.length := by
      cases buf with
      | mk data => cases data with
        | nil => exact absurd rfl h0
        | cons c t => simp [String.length]
    rw [if_pos (Or.inl hlen), if_pos hlen]
    apply ih
    · simp [h0]
    · simp only [String.data_append]
      rw [List.append_assoc, List.head?_append]
      rw [hh]
      rfl

/-- With only empty parts the `path.Join` buffer loop produces nothing
but slashes. -/
lemma joinBuf_slashes (parts : List String) (hparts : ∀ p ∈ parts, p = "") :
    ∀ buf : String, buf.data ≠ [] → (∀ c ∈ buf.data, c = '/') →
      (List.foldl
        (fun buf e =>
          if 0 < buf.length ∨ e ≠ "" then
            (if 0 < buf.length then buf ++ "/" else buf) ++ e
          else buf) buf parts).data ≠ [] ∧
      ∀ c ∈ (List.foldl
        (fun buf e =>
          if 0 < buf.length ∨ e ≠ "" then
            (if 0 < buf.length then buf ++ "/" else buf) ++ e
          else buf) buf parts).data, c = '/' := by
  induction parts with
  | nil => intro buf h0 hall; exact ⟨h0, hall⟩
  | cons p ps ih =>
    intro buf h0 hall
    have hp : p = "" := hparts p (by simp)
    subst hp
    rw [List.foldl_cons]
    have hlen : 0 < buf.length := by
      cases buf with
      | mk data => cases data with
        | nil => exact absurd rfl h0
        | cons c t => simp [String.length]
    rw [if_pos (Or.inl hlen), if_pos hlen]
    apply ih (fun q hq => hparts q (by simp [hq]))
    · simp [h0]
    · intro c hc
      simp only [String.data_append] at hc
      rcases List.mem_append.mp hc with hc1 | hc1
      · rcases List.mem_append.mp hc1 with hc2 | hc2
        · exact hall c hc2
        · simpa using hc2
      · simp at hc1

/-- Claim C6: for every list of string parts, `Join parts` equals the
standard library `path.Join` applied to `"/"` followed by the parts;
consequently the result always begins with a leading slash, and `Join` of
zero parts, or of parts that are all empty strings, is exactly `"/"`. -/
theorem Join_is_rooted_pathJoin :
    (∀ parts, Join parts = pathJoin ("/" :: parts)) ∧
    (∀ parts, (Join parts).data.head? = some '/') ∧
    (Join [] = "/") ∧
    (∀ parts, (∀ p ∈ parts, p = "") → Join parts = "/") := by
  have hsum : ∀ parts : List String, ((("/" : String) :: parts).map String.length).sum ≠ 0 := by
    intro parts
    simp [String.length]
  have hbuf : ∀ parts : List String,
      pathJoin ("/" :: parts) =
        pathClean (List.foldl
          (fun buf e =>
            if 0 < buf.length ∨ e ≠ "" then
              (if 0 < buf.length then buf ++ "/" else buf) ++ e
            else buf) "/" parts) := by
    intro parts
    rw [pathJoin, if_neg (hsum parts)]
    rw [List.foldl_cons]
    rfl
  refine ⟨fun parts => rfl, ?_, ?_, ?_⟩
  · intro parts
    show (pathJoin ("/" :: parts)).data.head? = some '/'
    rw [hbuf parts]
    have h := joinBuf_head parts "/" (by simp) (by simp)
    exact pathClean_rooted _ h.2
  · show pathJoin ("/" :: []) = "/"
    rw [hbuf []]
    simp only [List.foldl_nil]
    exact pathClean_slashes "/" (by simp) (by simp)
  · intro parts hparts
    show pathJoin ("/" :: parts) = "/"
    rw [hbuf parts]
    have h := joinBuf_slashes parts hparts "/" (by simp) (by simp)
    exact pathClean_slashes _ h.1 h.2

/-- Witness for claim C6: `Join` of two empty parts collapses to the
root. -/
theorem Join_is_rooted_pathJoin_witness : Join ["", ""] = "/" :=
  Join_is_rooted_pathJoin.2.2.2 ["", ""] (by simp)

/-- `splitOnSlash` always yields at least one field. -/
lemma splitOnSlash_ne_nil (l : List Char) : splitOnSlash l ≠ [] := by
  match l with
  | [] => simp [splitOnSlash]
  | c :: rest =>
    simp only [splitOnSlash]
    split
    · simp
    · split <;> simp

/-- Claim C9: for every string p, `CleanAndSplit p` is a non-empty slice
equal to `strings.Split(strings.Trim(path.Clean(p), "/."), "/")`; because
the trim cutset contains `.`, leading or trailing dots of the outermost
elements are stripped (`CleanAndSplit "/.hidden" = ["hidden"]`), and both
`CleanAndSplit ""` and `CleanAndSplit "/"` return the one-element slice
containing the empty string. -/
theorem CleanAndSplit_trim_split :
    (∀ p, CleanAndSplit p =
      (splitOnSlash (stringsTrim (pathClean p) sepStringAndDot.data).data).map String.mk) ∧
    (∀ p, CleanAndSplit p ≠ []) ∧
    CleanAndSplit "/.hidden" = ["hidden"] ∧
    CleanAndSplit "" = [""] ∧
    CleanAndSplit "/" = [""] := by
  refine ⟨fun p => rfl, ?_, ?_, ?_, ?_⟩
  · intro p
    simp only [CleanAndSplit]
    intro hcon
    exact splitOnSlash_ne_nil _ (List.map_eq_nil_iff.mp hcon)
  all_goals
    simp [CleanAndSplit, pathClean, cleanLoop, cleanBacktrack, stringsTrim,
      splitOnSlash, sepStringAndDot]

/-- Witness for claim C9: the documented dot-stripping example. -/
theorem CleanAndSplit_trim_split_witness : CleanAndSplit "/.hidden" = ["hidden"] :=
  CleanAndSplit_trim_split.2.2.1

end Shared

namespace Operator

/-- Witness for claim C5: a NotFound `Get` yields the empty result and a
nil error. -/
theorem Reconcile_get_error_paths_witness :
    Reconcile {} GetResult.notFound (Except.ok true) (fun _ => none) (fun _ => none) =
      ({}, none) :=
  (Reconcile_get_error_paths {} (Except.ok true) (fun _ => none) (fun _ => none)).1

end Operator
